import Mathlib

/-!
Shallow embedding of `scripts/fetch_articles.py`: a pipeline that fetches
entries from two RSS feeds (Medium, Dev.to), cleans excerpts, resolves
publication dates, merges, sorts (newest first, stable) and persists the
result. Network retrieval, the feed parsing library and the HTML-to-text
library are collaborators; their results are passed in as explicit values
(a fetch outcome is an `Except`, the HTML-to-text step is modelled by a
small tag-dropping state machine). All other logic is translated directly
from the Python source.
-/

namespace FetchArticles

/-- `MAX_ARTICLES = 20` from the configuration block of the script. -/
def MAX_ARTICLES : Nat := 20

/-- The first six components of a Python `time.struct_time`, which is what
`feedparser` stores in `published_parsed` / `updated_parsed` and what
`datetime(*struct[:6])` consumes. -/
structure TimeStruct where
  tmYear : Nat
  tmMon : Nat
  tmMday : Nat
  tmHour : Nat
  tmMin : Nat
  tmSec : Nat
deriving DecidableEq

/-- A Python naive `datetime` value (microsecond 0 throughout the script). -/
structure DateTime where
  year : Nat
  month : Nat
  day : Nat
  hour : Nat
  minute : Nat
  second : Nat
deriving DecidableEq

/-- `datetime.min`: year 1, month 1, day 1, midnight. -/
def datetimeMin : DateTime := ⟨1, 1, 1, 0, 0, 0⟩

/-- Gregorian leap-year test, as used by `datetime` validation. -/
def isLeap (y : Nat) : Bool :=
  y % 4 == 0 && (y % 100 != 0 || y % 400 == 0)

/-- Days in a month, as used by `datetime` validation. -/
def daysInMonth (y m : Nat) : Nat :=
  if m = 2 then (if isLeap y then 29 else 28)
  else if m = 4 ∨ m = 6 ∨ m = 9 ∨ m = 11 then 30
  else 31

/-- The range checks the `datetime` constructor performs on its arguments
(`MINYEAR = 1`, `MAXYEAR = 9999`). -/
def ValidTS (t : TimeStruct) : Prop :=
  1 ≤ t.tmYear ∧ t.tmYear ≤ 9999 ∧ 1 ≤ t.tmMon ∧ t.tmMon ≤ 12 ∧
  1 ≤ t.tmMday ∧ t.tmMday ≤ daysInMonth t.tmYear t.tmMon ∧
  t.tmHour ≤ 23 ∧ t.tmMin ≤ 59 ∧ t.tmSec ≤ 59

instance (t : TimeStruct) : Decidable (ValidTS t) := by
  unfold ValidTS; infer_instance

/-- `datetime(*struct[:6])`: builds a `datetime` from the first six time
struct components, raising `ValueError` (modelled as `Except.error`) when a
component is out of range. -/
def mkDatetime (t : TimeStruct) : Except String DateTime :=
  if ValidTS t then
    Except.ok ⟨t.tmYear, t.tmMon, t.tmMday, t.tmHour, t.tmMin, t.tmSec⟩
  else
    Except.error "ValueError"

/-- The component ranges of every `datetime` the script can construct. -/
def ValidDT (d : DateTime) : Prop :=
  1 ≤ d.year ∧ d.year ≤ 9999 ∧ 1 ≤ d.month ∧ d.month ≤ 12 ∧
  1 ≤ d.day ∧ d.day ≤ daysInMonth d.year d.month ∧
  d.hour ≤ 23 ∧ d.minute ≤ 59 ∧ d.second ≤ 59

instance (d : DateTime) : Decidable (ValidDT d) := by
  unfold ValidDT; infer_instance

/-- Mixed-radix encoding of a `datetime`; on values satisfying `ValidDT`
(all the script ever sorts) it is order-isomorphic to Python datetime
comparison, which is lexicographic on the components. -/
def DateTime.code (d : DateTime) : Nat :=
  ((((d.year * 13 + d.month) * 32 + d.day) * 24 + d.hour) * 60 + d.minute) * 60
    + d.second

/-- Chronological (lexicographic, component-wise) order on datetimes: the
comparison Python applies when sorting `datetime` keys. -/
def DateTime.chronLe (a b : DateTime) : Prop :=
  a.year < b.year ∨ (a.year = b.year ∧
    (a.month < b.month ∨ (a.month = b.month ∧
      (a.day < b.day ∨ (a.day = b.day ∧
        (a.hour < b.hour ∨ (a.hour = b.hour ∧
          (a.minute < b.minute ∨ (a.minute = b.minute ∧
            a.second ≤ b.second)))))))))

/-- Left-pad with zeros to 2 digits, as `datetime.isoformat` prints
month, day, hour, minute, second. -/
def pad2 (n : Nat) : String :=
  if n < 10 then "0" ++ toString n else toString n

/-- Left-pad with zeros to 4 digits, as `datetime.isoformat` prints years. -/
def pad4 (n : Nat) : String :=
  if n < 10 then "000" ++ toString n
  else if n < 100 then "00" ++ toString n
  else if n < 1000 then "0" ++ toString n
  else toString n

/-- `datetime.isoformat()` for a naive datetime with microsecond 0:
`YYYY-MM-DDTHH:MM:SS`. -/
def DateTime.isoformat (d : DateTime) : String :=
  pad4 d.year ++ "-" ++ pad2 d.month ++ "-" ++ pad2 d.day ++ "T" ++
    pad2 d.hour ++ ":" ++ pad2 d.minute ++ ":" ++ pad2 d.second

/-- One element of a `feedparser` entry content list: a block exposing an
optional text value (`block.get` with default covers a missing value). -/
structure ContentBlock where
  value : Option String
deriving DecidableEq

/-- A raw feed entry as exposed by the `feedparser` collaborator: title and
link strings, optional pre-parsed published/updated time structs (absent or
`None` both map to `none`), an optional content-block list (the `content`
key may be missing from the underlying dict), and optional
summary/description strings. -/
structure RawEntry where
  title : String
  link : String
  published_parsed : Option TimeStruct
  updated_parsed : Option TimeStruct
  content : Option (List ContentBlock)
  summary : Option String
  description : Option String
deriving DecidableEq

/-- `datetime(*t[:6])` under the `try` of `parse_date`: a `ValueError`
raised by the constructor is caught and degrades to `datetime.min`. -/
def dtOfStruct (t : TimeStruct) : DateTime :=
  match mkDatetime t with
  | Except.ok d => d
  | Except.error _ => datetimeMin

/-- `parse_date(entry)`: prefer `published_parsed`, else `updated_parsed`,
else `datetime.min`; a `ValueError` raised by the `datetime` constructor is
caught by the surrounding `try` and degrades to `datetime.min`. The
function is total: no exception escapes it. -/
def parse_date (e : RawEntry) : DateTime :=
  match e.published_parsed with
  | some t => dtOfStruct t
  | none =>
    match e.updated_parsed with
    | some t => dtOfStruct t
    | none => datetimeMin

/-- Model of the BeautifulSoup `get_text()` collaborator (HTML-to-text):
drop everything between tag brackets, keep the remaining text. -/
def stripTagsAux : Bool → List Char → List Char
  | _, [] => []
  | _, '<' :: cs => stripTagsAux true cs
  | _, '>' :: cs => stripTagsAux false cs
  | true, _ :: cs => stripTagsAux true cs
  | false, c :: cs => c :: stripTagsAux false cs

/-- `soup.get_text()` on the character list of the input. -/
def stripTags (cs : List Char) : List Char :=
  stripTagsAux false cs

/-- `text.split()`: split on runs of whitespace, dropping empty pieces. -/
def wordsAux (cur : List Char) : List Char → List (List Char)
  | [] => if cur = [] then [] else [cur.reverse]
  | c :: cs =>
    if c.isWhitespace then
      if cur = [] then wordsAux [] cs else cur.reverse :: wordsAux [] cs
    else
      wordsAux (c :: cur) cs

/-- `' '.join(text.split())`: collapse all whitespace runs to single
spaces and trim the ends. -/
def collapseWs (cs : List Char) : List Char :=
  List.intercalate [' '] (wordsAux [] cs)

/-- The three-character ellipsis marker appended on truncation. -/
def ellipsis : List Char := ['.', '.', '.']

/-- The body of `clean_html` on a character list: empty input short-circuits
to empty, otherwise strip markup, collapse whitespace, and truncate to 197
characters plus the marker when longer than 200. -/
def cleanHtmlCore (cs : List Char) : List Char :=
  if cs = [] then []
  else
    let text := collapseWs (stripTags cs)
    if 200 < text.length then text.take 197 ++ ellipsis else text

/-- `clean_html(html_text)`: `None` and the empty string are both falsy and
return the empty string; total, never raises. -/
def clean_html (o : Option String) : String :=
  match o with
  | none => ""
  | some s => (cleanHtmlCore s.toList).asString

/-- A normalized article dict as built inside the fetch loops, including
the sort-only `_sort_date` field. `updated_at` receives the
`datetime.now().isoformat()` collaborator value, passed in as `now`. -/
structure Article where
  title : String
  url : String
  platform : String
  excerpt : String
  published : String
  updated_at : String
  sortDate : DateTime
deriving DecidableEq

/-- The record shape after `article.pop` removes `_sort_date`: exactly the
six persisted fields. -/
structure ArticleOut where
  title : String
  url : String
  platform : String
  excerpt : String
  published : String
  updated_at : String
deriving DecidableEq

/-- The removal of the sort-only field from one article dict. -/
def dropSortDate (a : Article) : ArticleOut :=
  ⟨a.title, a.url, a.platform, a.excerpt, a.published, a.updated_at⟩

/-- Python `x or y` on strings: the empty string is falsy. -/
def pyOr (a b : String) : String :=
  if a = "" then b else a

/-- `entry.get('content', [{}])[0].get('value', '') or entry.get('summary', '')`:
a missing `content` key falls back to the one-empty-dict default whose first
element yields the empty value, but a PRESENT and EMPTY content list makes
the `[0]` index raise `IndexError` (modelled as `Except.error`). -/
def mediumContentOf (e : RawEntry) : Except Unit String :=
  match e.content with
  | none => Except.ok (pyOr "" (e.summary.getD ""))
  | some [] => Except.error ()
  | some (b :: _) => Except.ok (pyOr (b.value.getD "") (e.summary.getD ""))

/-- `entry.get('description', '') or entry.get('summary', '')`. -/
def devtoContentOf (e : RawEntry) : String :=
  pyOr (e.description.getD "") (e.summary.getD "")

/-- One iteration of the Medium loop body: builds the article dict, or
raises (the `IndexError` from the content lookup) to the surrounding
`try`. -/
def mk_medium_article (now : String) (e : RawEntry) : Except Unit Article :=
  match mediumContentOf e with
  | Except.error err => Except.error err
  | Except.ok content =>
    let pub := parse_date e
    Except.ok
      { title := e.title
        url := e.link
        platform := "medium"
        excerpt := clean_html (some content)
        published := if pub = datetimeMin then "" else pub.isoformat
        updated_at := now
        sortDate := pub }

/-- One iteration of the Dev.to loop body; every step is total. -/
def mk_devto_article (now : String) (e : RawEntry) : Article :=
  let pub := parse_date e
  { title := e.title
    url := e.link
    platform := "devto"
    excerpt := clean_html (some (devtoContentOf e))
    published := if pub = datetimeMin then "" else pub.isoformat
    updated_at := now
    sortDate := pub }

/-- The Medium `for` loop: appends article dicts until an entry raises, in
which case the exception jumps to the `except` handler and the articles
accumulated so far are returned. -/
def mediumLoop (now : String) : List RawEntry → List Article
  | [] => []
  | e :: es =>
    match mk_medium_article now e with
    | Except.ok a => a :: mediumLoop now es
    | Except.error _ => []

/-- `fetch_medium_articles()`: the outcome of `feedparser.parse` on the
Medium feed is passed in as `fr`; a retrieval or parse failure is caught by
the `except` handler and the (still empty) accumulator is returned. At most
the first `MAX_ARTICLES` entries are iterated. -/
def fetch_medium_articles (fr : Except String (List RawEntry)) (now : String) :
    List Article :=
  match fr with
  | Except.error _ => []
  | Except.ok entries => mediumLoop now (entries.take MAX_ARTICLES)

/-- `fetch_devto_articles()`: as for Medium, but the per-entry body is
total, so a successful parse contributes every entry of the capped
prefix. -/
def fetch_devto_articles (fr : Except String (List RawEntry)) (now : String) :
    List Article :=
  match fr with
  | Except.error _ => []
  | Except.ok entries => (entries.take MAX_ARTICLES).map (mk_devto_article now)

/-- The descending sort key: `x.get('_sort_date', datetime.min)` compared
as a Python datetime, encoded through `DateTime.code`. -/
def sortKey (a : Article) : Nat :=
  a.sortDate.code

/-- Stable descending insertion: `a` is placed before the first element
whose key is not larger, so among equal keys earlier input stays first. -/
def insertD (a : Article) : List Article → List Article
  | [] => [a]
  | b :: bs => if sortKey b ≤ sortKey a then a :: b :: bs else b :: insertD a bs

/-- `all_articles.sort(key=..., reverse=True)`: Python list sort is stable,
and `reverse=True` keeps equal-key elements in input order; any stable
descending sort is extensionally that sort, here insertion sort. -/
def sortDesc : List Article → List Article
  | [] => []
  | a :: as => insertD a (sortDesc as)

/-- `all_articles = medium_articles + devto_articles`. -/
def combined (mfr dfr : Except String (List RawEntry)) (now : String) :
    List Article :=
  fetch_medium_articles mfr now ++ fetch_devto_articles dfr now

/-- The combined list after the in-place sort. -/
def sortedCombined (mfr dfr : Except String (List RawEntry)) (now : String) :
    List Article :=
  sortDesc (combined mfr dfr now)

/-- The article list as serialized by `main`: sorted, with the `_sort_date`
field popped from every record. -/
def mainArticles (mfr dfr : Except String (List RawEntry)) (now : String) :
    List ArticleOut :=
  (sortedCombined mfr dfr now).map dropSortDate

/-- The entry list a fetch outcome carries (empty on failure). -/
def entriesOf (fr : Except String (List RawEntry)) : List RawEntry :=
  match fr with
  | Except.error _ => []
  | Except.ok es => es

/-- Spec-side description (for comparison with the code): the Medium
excerpt source is the first content block value when that value is
non-empty, otherwise the summary, with missing fields degrading to the
empty string. -/
def mediumExcerptSrc (e : RawEntry) : String :=
  match e.content with
  | some (b :: _) =>
    if b.value.getD "" ≠ "" then b.value.getD "" else e.summary.getD ""
  | _ => e.summary.getD ""

/-- Spec-side description: the Dev.to excerpt source is the description
when non-empty, otherwise the summary, missing fields degrading to the
empty string. -/
def devtoExcerptSrc (e : RawEntry) : String :=
  if e.description.getD "" ≠ "" then e.description.getD "" else e.summary.getD ""

/-- A plain entry with no dates and no content: every fetch step succeeds
on it. -/
def goodEntry : RawEntry := ⟨"t", "u", none, none, none, none, none⟩

/-- An entry whose `content` key is present but maps to an empty list: the
`[0]` lookup in the Medium loop raises `IndexError` on it. -/
def badEntry : RawEntry := ⟨"t", "u", none, none, some [], some "hello", none⟩

/-- An entry whose feed title is the empty string. -/
def emptyTitleEntry : RawEntry := ⟨"", "u", none, none, none, none, none⟩

/-- A valid parsed time struct: 2021-05-03 10:20:30. -/
def ts2021 : TimeStruct := ⟨2021, 5, 3, 10, 20, 30⟩

/-- The datetime built from `ts2021`. -/
def dt2021 : DateTime := ⟨2021, 5, 3, 10, 20, 30⟩

/-- An entry carrying `ts2021` as its pre-parsed published time. -/
def datedEntry : RawEntry := ⟨"t", "u", some ts2021, none, none, none, none⟩

/-- A time struct with month 13: the `datetime` constructor raises
`ValueError` on it. -/
def tsBadMonth : TimeStruct := ⟨2021, 13, 1, 0, 0, 0⟩

/-- An entry whose pre-parsed published time has an out-of-range month. -/
def badDateEntry : RawEntry := ⟨"t", "u", some tsBadMonth, none, none, none, none⟩

/-- A 250-character input with neither markup nor whitespace. -/
def longInput : String := List.asString (List.replicate 250 'a')

theorem daysInMonth_le (y m : Nat) : daysInMonth y m ≤ 31 := by
  unfold daysInMonth
  repeat' split
  all_goals omega

theorem validDT_bounds {d : DateTime} (h : ValidDT d) :
    1 ≤ d.year ∧ 1 ≤ d.month ∧ d.month ≤ 12 ∧ 1 ≤ d.day ∧ d.day ≤ 31 ∧
    d.hour ≤ 23 ∧ d.minute ≤ 59 ∧ d.second ≤ 59 := by
  obtain ⟨h1, h2, h3, h4, h5, h6, h7, h8, h9⟩ := h
  exact ⟨h1, h3, h4, h5, le_trans h6 (daysInMonth_le _ _), h7, h8, h9⟩

theorem datetimeMin_valid : ValidDT datetimeMin := by decide

theorem code_le_iff_chronLe {a b : DateTime} (ha : ValidDT a) (hb : ValidDT b) :
    DateTime.code a ≤ DateTime.code b ↔ DateTime.chronLe a b := by
  obtain ⟨a1, a2, a3, a4, a5, a6, a7, a8⟩ := validDT_bounds ha
  obtain ⟨b1, b2, b3, b4, b5, b6, b7, b8⟩ := validDT_bounds hb
  unfold DateTime.code DateTime.chronLe
  constructor
  · intro h
    omega
  · intro h
    omega

theorem valid_code_min {d : DateTime} (hd : ValidDT d)
    (h : DateTime.code d ≤ DateTime.code datetimeMin) : d = datetimeMin := by
  obtain ⟨d1, d2, d3, d4, d5, d6, d7, d8⟩ := validDT_bounds hd
  cases d with
  | mk y mo da h' mi s =>
    simp only [DateTime.code, datetimeMin] at *
    simp only [DateTime.mk.injEq]
    omega

theorem mkDatetime_ok_valid {t : TimeStruct} {d : DateTime}
    (h : mkDatetime t = Except.ok d) : ValidDT d := by
  unfold mkDatetime at h
  split at h
  · cases h
    rename_i hv
    exact hv
  · cases h

theorem dtOfStruct_valid (t : TimeStruct) : ValidDT (dtOfStruct t) := by
  unfold dtOfStruct
  split
  · rename_i d hm
    exact mkDatetime_ok_valid hm
  · exact datetimeMin_valid

theorem parse_date_valid (e : RawEntry) : ValidDT (parse_date e) := by
  unfold parse_date
  repeat' split
  all_goals first
    | exact dtOfStruct_valid _
    | exact datetimeMin_valid

theorem mk_medium_ok_fields {now : String} {e : RawEntry} {a : Article}
    (h : mk_medium_article now e = Except.ok a) :
    a.title = e.title ∧ a.url = e.link ∧ a.platform = "medium" ∧
    a.sortDate = parse_date e ∧ a.updated_at = now ∧
    a.published =
      (if parse_date e = datetimeMin then "" else (parse_date e).isoformat) := by
  unfold mk_medium_article at h
  cases hc : mediumContentOf e with
  | error err => rw [hc] at h; cases h
  | ok c =>
    rw [hc] at h
    cases h
    exact ⟨rfl, rfl, rfl, rfl, rfl, rfl⟩

theorem mk_devto_fields (now : String) (e : RawEntry) :
    (mk_devto_article now e).title = e.title ∧
    (mk_devto_article now e).url = e.link ∧
    (mk_devto_article now e).platform = "devto" ∧
    (mk_devto_article now e).sortDate = parse_date e ∧
    (mk_devto_article now e).updated_at = now ∧
    (mk_devto_article now e).published =
      (if parse_date e = datetimeMin then "" else (parse_date e).isoformat) :=
  ⟨rfl, rfl, rfl, rfl, rfl, rfl⟩

theorem mem_mediumLoop {now : String} {l : List RawEntry} {a : Article}
    (h : a ∈ mediumLoop now l) :
    ∃ e ∈ l, mk_medium_article now e = Except.ok a := by
  induction l with
  | nil => cases h
  | cons e es ih =>
    unfold mediumLoop at h
    cases hm : mk_medium_article now e with
    | ok b =>
      rw [hm] at h
      rcases List.mem_cons.mp h with h1 | h2
      · exact ⟨e, List.mem_cons_self .., h1 ▸ hm⟩
      · obtain ⟨e', he', hok⟩ := ih h2
        exact ⟨e', List.mem_cons_of_mem _ he', hok⟩
    | error err =>
      rw [hm] at h
      cases h

theorem mem_fetch_medium {fr : Except String (List RawEntry)} {now : String}
    {a : Article} (h : a ∈ fetch_medium_articles fr now) :
    ∃ e ∈ entriesOf fr, mk_medium_article now e = Except.ok a := by
  cases fr with
  | error s => cases h
  | ok es =>
    obtain ⟨e, he, hok⟩ := mem_mediumLoop h
    exact ⟨e, List.mem_of_mem_take he, hok⟩

theorem mem_fetch_devto {fr : Except String (List RawEntry)} {now : String}
    {a : Article} (h : a ∈ fetch_devto_articles fr now) :
    ∃ e ∈ entriesOf fr, a = mk_devto_article now e := by
  cases fr with
  | error s => cases h
  | ok es =>
    obtain ⟨e, he, heq⟩ := List.mem_map.mp h
    exact ⟨e, List.mem_of_mem_take he, heq.symm⟩

theorem mem_combined_valid {mfr dfr : Except String (List RawEntry)}
    {now : String} {a : Article} (h : a ∈ combined mfr dfr now) :
    ValidDT a.sortDate := by
  rcases List.mem_append.mp h with hm | hd
  · obtain ⟨e, _, hok⟩ := mem_fetch_medium hm
    rw [(mk_medium_ok_fields hok).2.2.2.1]
    exact parse_date_valid e
  · obtain ⟨e, _, heq⟩ := mem_fetch_devto hd
    rw [heq, (mk_devto_fields now e).2.2.2.1]
    exact parse_date_valid e

theorem insertD_perm (a : Article) (l : List Article) :
    List.Perm (insertD a l) (a :: l) := by
  induction l with
  | nil => exact List.Perm.refl _
  | cons b bs ih =>
    unfold insertD
    split
    · exact List.Perm.refl _
    · exact List.Perm.trans (List.Perm.cons b ih) (List.Perm.swap a b bs)

theorem sortDesc_perm (l : List Article) : List.Perm (sortDesc l) l := by
  induction l with
  | nil => exact List.Perm.refl _
  | cons a as ih =>
    exact List.Perm.trans (insertD_perm a (sortDesc as)) (List.Perm.cons a ih)

theorem insertD_sorted {a : Article} {l : List Article}
    (h : l.Pairwise (fun x y => sortKey y ≤ sortKey x)) :
    (insertD a l).Pairwise (fun x y => sortKey y ≤ sortKey x) := by
  induction l with
  | nil => simp [insertD]
  | cons b bs ih =>
    rcases List.pairwise_cons.mp h with ⟨hb, hbs⟩
    unfold insertD
    split
    · rename_i hba
      refine List.pairwise_cons.mpr ⟨?_, h⟩
      intro x hx
      rcases List.mem_cons.mp hx with h1 | h2
      · rw [h1]; exact hba
      · exact le_trans (hb x h2) hba
    · rename_i hba
      refine List.pairwise_cons.mpr ⟨?_, ih hbs⟩
      intro x hx
      have hx' : x ∈ a :: bs := (insertD_perm a bs).mem_iff.mp hx
      rcases List.mem_cons.mp hx' with h1 | h2
      · rw [h1]; omega
      · exact hb x h2

theorem sortDesc_sorted (l : List Article) :
    (sortDesc l).Pairwise (fun x y => sortKey y ≤ sortKey x) := by
  induction l with
  | nil => simp [sortDesc]
  | cons a as ih => exact insertD_sorted ih

theorem filter_insertD (k : Nat) (a : Article) (l : List Article) :
    (insertD a l).filter (fun x => sortKey x == k) =
      if sortKey a == k then a :: l.filter (fun x => sortKey x == k)
      else l.filter (fun x => sortKey x == k) := by
  induction l with
  | nil => simp [insertD, List.filter_cons]
  | cons b bs ih =>
    unfold insertD
    split
    · rename_i hba
      rw [List.filter_cons]
    · rename_i hba
      rw [List.filter_cons, ih]
      by_cases hak : (sortKey a == k) = true
      · have hbk : (sortKey b == k) = false := by
          simp only [beq_iff_eq] at hak
          simp only [beq_eq_false_iff_ne, ne_eq]
          omega
        simp [hak, hbk, List.filter_cons]
      · simp only [Bool.not_eq_true] at hak
        simp [hak, List.filter_cons]

theorem sortDesc_filter (k : Nat) (l : List Article) :
    (sortDesc l).filter (fun x => sortKey x == k) =
      l.filter (fun x => sortKey x == k) := by
  induction l with
  | nil => rfl
  | cons a as ih =>
    show (insertD a (sortDesc as)).filter _ = _
    rw [filter_insertD, ih, List.filter_cons]

theorem pyOr_eq_src (v s : String) : pyOr v s = if v ≠ "" then v else s := by
  unfold pyOr
  by_cases hv : v = ""
  · simp [hv]
  · simp [hv]

theorem mediumContentOf_eq {e : RawEntry} (h : e.content ≠ some []) :
    mediumContentOf e = Except.ok (mediumExcerptSrc e) := by
  unfold mediumContentOf mediumExcerptSrc
  cases hc : e.content with
  | none =>
    show Except.ok (pyOr "" (e.summary.getD "")) = Except.ok (e.summary.getD "")
    rw [pyOr_eq_src]
    simp
  | some bs =>
    cases bs with
    | nil => exact absurd hc h
    | cons b bs' =>
      show Except.ok (pyOr (b.value.getD "") (e.summary.getD "")) = _
      rw [pyOr_eq_src]

theorem mk_medium_total {now : String} {e : RawEntry} (h : e.content ≠ some []) :
    ∃ a, mk_medium_article now e = Except.ok a := by
  unfold mk_medium_article
  rw [mediumContentOf_eq h]
  exact ⟨_, rfl⟩

theorem mk_medium_ok_excerpt {now : String} {e : RawEntry} {a : Article}
    {c : String} (h : mk_medium_article now e = Except.ok a)
    (hc : mediumContentOf e = Except.ok c) :
    a.excerpt = clean_html (some c) := by
  unfold mk_medium_article at h
  rw [hc] at h
  cases h
  rfl

theorem cleanHtmlCore_spec (cs : List Char) :
    (cleanHtmlCore cs).length ≤ 200
  ∧ (200 < (collapseWs (stripTags cs)).length →
      cleanHtmlCore cs = (collapseWs (stripTags cs)).take 197 ++ ellipsis
      ∧ (cleanHtmlCore cs).length = 200)
  ∧ ((collapseWs (stripTags cs)).length ≤ 200 →
      cleanHtmlCore cs = collapseWs (stripTags cs)) := by
  by_cases hcs : cs = []
  · subst hcs
    exact ⟨by decide, fun h => absurd h (by decide), fun h => by decide⟩
  · have hcore : cleanHtmlCore cs =
        (if 200 < (collapseWs (stripTags cs)).length then
          (collapseWs (stripTags cs)).take 197 ++ ellipsis
        else collapseWs (stripTags cs)) := by
      unfold cleanHtmlCore
      rw [if_neg hcs]
    by_cases hlen : 200 < (collapseWs (stripTags cs)).length
    · rw [hcore, if_pos hlen]
      have h197 : ((collapseWs (stripTags cs)).take 197).length = 197 := by
        rw [List.length_take]
        omega
      have htot : ((collapseWs (stripTags cs)).take 197 ++ ellipsis).length = 200 := by
        rw [List.length_append, h197]
        rfl
      exact ⟨le_of_eq htot, fun _ => ⟨rfl, htot⟩, fun h => absurd hlen (by omega)⟩
    · push_neg at hlen
      rw [hcore, if_neg (by omega)]
      exact ⟨hlen, fun h => absurd h (by omega), fun _ => rfl⟩

/-- C2: for every input string the excerpt produced by `clean_html` has at
most 200 characters; when the whitespace-collapsed stripped text exceeds
200 characters the result is exactly its first 197 characters followed by
the 3-character marker, 200 characters in total; otherwise that text is
returned unchanged. -/
theorem claim_C2 (s : String) :
    (clean_html (some s)).length ≤ 200
  ∧ (200 < (collapseWs (stripTags s.toList)).length →
      (clean_html (some s)).toList
        = (collapseWs (stripTags s.toList)).take 197 ++ ellipsis
      ∧ (clean_html (some s)).length = 200)
  ∧ ((collapseWs (stripTags s.toList)).length ≤ 200 →
      (clean_html (some s)).toList = collapseWs (stripTags s.toList)) := by
  have h := cleanHtmlCore_spec s.toList
  have hlen : (clean_html (some s)).length = (cleanHtmlCore s.toList).length := rfl
  have hlist : (clean_html (some s)).toList = cleanHtmlCore s.toList := rfl
  rw [hlen, hlist]
  exact h

set_option maxRecDepth 40000 in
/-- Witness for C2 at a concrete 250-character input. -/
theorem claim_C2_witness :
    (clean_html (some longInput)).length = 200
  ∧ (clean_html (some longInput)).toList
      = (collapseWs (stripTags longInput.toList)).take 197 ++ ellipsis := by
  have h := (claim_C2 longInput).2.1 (by decide)
  exact ⟨h.2, h.1⟩

/-- C7: `clean_html` maps the `None`-equivalent input and the empty string
to the empty string; being a total function of the embedding, it never
raises. -/
theorem claim_C7 : clean_html none = "" ∧ clean_html (some "") = "" :=
  ⟨rfl, rfl⟩

/-- C4: the date resolver is Variant A (parsed-first): it uses the
pre-parsed published components when present, else the pre-parsed updated
components, else the minimum timestamp; and both normalized records format
`published` as the ISO-8601 rendering of the resolved time, or the empty
string when the resolved value equals the minimum. -/
theorem claim_C4 (e : RawEntry) (t : TimeStruct) (d : DateTime) (now : String) :
    (e.published_parsed = some t → mkDatetime t = Except.ok d →
      parse_date e = d)
  ∧ (e.published_parsed = none → e.updated_parsed = some t →
      mkDatetime t = Except.ok d → parse_date e = d)
  ∧ (e.published_parsed = none → e.updated_parsed = none →
      parse_date e = datetimeMin)
  ∧ ((mk_devto_article now e).published =
      if parse_date e = datetimeMin then "" else (parse_date e).isoformat)
  ∧ (∀ a, mk_medium_article now e = Except.ok a →
      a.published =
        if parse_date e = datetimeMin then "" else (parse_date e).isoformat) := by
  refine ⟨?_, ?_, ?_, rfl, ?_⟩
  · intro hp hm
    unfold parse_date
    rw [hp]
    show dtOfStruct t = d
    unfold dtOfStruct
    rw [hm]
  · intro hp hu hm
    unfold parse_date
    rw [hp, hu]
    show dtOfStruct t = d
    unfold dtOfStruct
    rw [hm]
  · intro hp hu
    unfold parse_date
    rw [hp, hu]
  · intro a ha
    exact (mk_medium_ok_fields ha).2.2.2.2.2

/-- Witness for C4 at an entry with a valid pre-parsed published time. -/
theorem claim_C4_witness :
    parse_date datedEntry = dt2021
  ∧ (mk_devto_article "T" datedEntry).published = "2021-05-03T10:20:30" := by
  have h1 : parse_date datedEntry = dt2021 :=
    (claim_C4 datedEntry ts2021 dt2021 "T").1 rfl rfl
  have h2 := (claim_C4 datedEntry ts2021 dt2021 "T").2.2.2.1
  rw [h1] at h2
  refine ⟨h1, ?_⟩
  rw [h2]
  decide

/-- C5: a parse exception inside date resolution (an out-of-range component
in whichever pre-parsed struct the chain selected) is caught there and
degrades the result to the minimum timestamp, which yields an empty
`published` string in the normalized records; `parse_date` is total, so
nothing propagates. -/
theorem claim_C5 (e : RawEntry) (t : TimeStruct) (msg now : String)
    (h : (e.published_parsed = some t ∧ mkDatetime t = Except.error msg)
       ∨ (e.published_parsed = none ∧ e.updated_parsed = some t
            ∧ mkDatetime t = Except.error msg)) :
    parse_date e = datetimeMin
  ∧ (mk_devto_article now e).published = ""
  ∧ (∀ a, mk_medium_article now e = Except.ok a → a.published = "") := by
  have hmin : parse_date e = datetimeMin := by
    rcases h with ⟨hp, hm⟩ | ⟨hp, hu, hm⟩
    · unfold parse_date
      rw [hp]
      show dtOfStruct t = datetimeMin
      unfold dtOfStruct
      rw [hm]
    · unfold parse_date
      rw [hp, hu]
      show dtOfStruct t = datetimeMin
      unfold dtOfStruct
      rw [hm]
  refine ⟨hmin, ?_, ?_⟩
  · rw [(mk_devto_fields now e).2.2.2.2.2, hmin]
    simp
  · intro a ha
    rw [(mk_medium_ok_fields ha).2.2.2.2.2, hmin]
    simp

/-- Witness for C5 at an entry whose published struct has month 13. -/
theorem claim_C5_witness :
    parse_date badDateEntry = datetimeMin
  ∧ (mk_devto_article "T" badDateEntry).published = "" := by
  have h := claim_C5 badDateEntry tsBadMonth "ValueError" "T" (Or.inl ⟨rfl, rfl⟩)
  exact ⟨h.1, h.2.1⟩

/-- C1: the combined output of the two fetched lists is sorted by effective
publication time descending (chronological order on the resolved
datetimes); every entry whose resolved time is the minimum (no resolvable
date) comes after all entries with a later resolved time; the sort is
stable, so entries with equal sort keys keep their concatenation order
(Medium list before Dev.to list); and the sorted list is a permutation of
the concatenation. -/
theorem claim_C1 (mfr dfr : Except String (List RawEntry)) (now : String) :
    (sortedCombined mfr dfr now).Pairwise
      (fun a b => DateTime.chronLe b.sortDate a.sortDate)
  ∧ (sortedCombined mfr dfr now).Pairwise
      (fun a b => a.sortDate = datetimeMin → b.sortDate = datetimeMin)
  ∧ (∀ k : Nat, (sortedCombined mfr dfr now).filter (fun x => sortKey x == k)
      = (fetch_medium_articles mfr now
          ++ fetch_devto_articles dfr now).filter (fun x => sortKey x == k))
  ∧ List.Perm (sortedCombined mfr dfr now)
      (fetch_medium_articles mfr now ++ fetch_devto_articles dfr now) := by
  have hperm : List.Perm (sortedCombined mfr dfr now) (combined mfr dfr now) :=
    sortDesc_perm _
  have hvalid : ∀ a ∈ sortedCombined mfr dfr now, ValidDT a.sortDate :=
    fun a ha => mem_combined_valid (hperm.mem_iff.mp ha)
  have hsorted : (sortedCombined mfr dfr now).Pairwise
      (fun x y => sortKey y ≤ sortKey x) := sortDesc_sorted (combined mfr dfr now)
  refine ⟨?_, ?_, fun k => sortDesc_filter k _, hperm⟩
  · exact List.Pairwise.imp_of_mem
      (fun {a b} ha hb hle =>
        (code_le_iff_chronLe (hvalid b hb) (hvalid a ha)).mp hle) hsorted
  · refine List.Pairwise.imp_of_mem (fun {a b} ha hb hle hmin => ?_) hsorted
    have hcode : DateTime.code b.sortDate ≤ DateTime.code datetimeMin := by
      have hle' : DateTime.code b.sortDate ≤ DateTime.code a.sortDate := hle
      rw [hmin] at hle'
      exact hle'
    exact valid_code_min (hvalid b hb) hcode

/-- C3: when retrieval or feed parsing fails for a source, that source
contributes the empty list, the run continues, and the persisted output is
exactly the sorted, stripped article list of the other source. -/
theorem claim_C3 (s now : String) (mfr dfr : Except String (List RawEntry)) :
    fetch_medium_articles (Except.error s) now = []
  ∧ fetch_devto_articles (Except.error s) now = []
  ∧ mainArticles (Except.error s) dfr now
      = (sortDesc (fetch_devto_articles dfr now)).map dropSortDate
  ∧ mainArticles mfr (Except.error s) now
      = (sortDesc (fetch_medium_articles mfr now)).map dropSortDate := by
  refine ⟨rfl, rfl, ?_, ?_⟩
  · unfold mainArticles sortedCombined combined
    rw [show fetch_medium_articles (Except.error s) now = [] from rfl,
      List.nil_append]
  · unfold mainArticles sortedCombined combined
    rw [show fetch_devto_articles (Except.error s) now = [] from rfl,
      List.append_nil]

/-- Counterexample for C6: a Medium feed of 25 entries whose first entry
has a present-but-empty content list contributes 0 articles, not 20: the
`[0]` lookup raises and the handler returns the accumulator. -/
theorem claim_C6_counterexample :
    (badEntry :: List.replicate 24 goodEntry).length = 25
  ∧ (fetch_medium_articles
      (Except.ok (badEntry :: List.replicate 24 goodEntry)) "T").length = 0
  ∧ (fetch_medium_articles
      (Except.ok (badEntry :: List.replicate 24 goodEntry)) "T").length ≠ 20 :=
  ⟨by decide, by decide, by decide⟩

/-- C6 amended: each fetch iterates at most the first `MAX_ARTICLES`
entries in feed order (prefix truncation); a Dev.to parse always
contributes exactly `min 20 n` articles, and a Medium parse does whenever
no entry of the capped prefix carries a present-but-empty content list. -/
theorem claim_C6_amended (entries entries2 : List RawEntry) (now : String)
    (h : ∀ e ∈ entries.take MAX_ARTICLES, e.content ≠ some []) :
    fetch_medium_articles (Except.ok entries) now
      = mediumLoop now (entries.take MAX_ARTICLES)
  ∧ (fetch_medium_articles (Except.ok entries) now).length
      = min MAX_ARTICLES entries.length
  ∧ fetch_devto_articles (Except.ok entries2) now
      = (entries2.take MAX_ARTICLES).map (mk_devto_article now)
  ∧ (fetch_devto_articles (Except.ok entries2) now).length
      = min MAX_ARTICLES entries2.length := by
  refine ⟨rfl, ?_, rfl, ?_⟩
  · have hlen : ∀ l : List RawEntry, (∀ e ∈ l, e.content ≠ some []) →
        (mediumLoop now l).length = l.length := by
      intro l
      induction l with
      | nil => intro _; rfl
      | cons e es ih =>
        intro hl
        obtain ⟨a, ha⟩ :=
          @mk_medium_total now e (hl e (List.mem_cons_self ..))
        show (mediumLoop now (e :: es)).length = es.length + 1
        unfold mediumLoop
        rw [ha]
        simp only [List.length_cons]
        rw [ih (fun e' he' => hl e' (List.mem_cons_of_mem _ he'))]
    show (mediumLoop now (entries.take MAX_ARTICLES)).length = _
    rw [hlen _ h, List.length_take]
  · show ((entries2.take MAX_ARTICLES).map (mk_devto_article now)).length = _
    rw [List.length_map, List.length_take]

/-- Witness for C6 amended: 25 well-formed entries yield exactly 20. -/
theorem claim_C6_amended_witness :
    (fetch_medium_articles (Except.ok (List.replicate 25 goodEntry)) "T").length
      = 20 := by
  have hh : ∀ e ∈ (List.replicate 25 goodEntry).take MAX_ARTICLES,
      e.content ≠ some [] := by
    intro e he
    rw [List.eq_of_mem_replicate (List.mem_of_mem_take he)]
    decide
  have h := (claim_C6_amended (List.replicate 25 goodEntry) [] "T" hh).2.1
  rw [h]
  decide

/-- C9: the serialized list is the sorted list with the sort-only field
removed from every record; the removal yields exactly the six persisted
fields and leaves each of them unchanged. -/
theorem claim_C9 (mfr dfr : Except String (List RawEntry)) (now : String) :
    mainArticles mfr dfr now = (sortedCombined mfr dfr now).map dropSortDate
  ∧ (∀ a : Article, dropSortDate a
      = ⟨a.title, a.url, a.platform, a.excerpt, a.published, a.updated_at⟩)
  ∧ (mainArticles mfr dfr now).map (fun a => a.title)
      = (sortedCombined mfr dfr now).map (fun a => a.title)
  ∧ (mainArticles mfr dfr now).map (fun a => a.url)
      = (sortedCombined mfr dfr now).map (fun a => a.url)
  ∧ (mainArticles mfr dfr now).map (fun a => a.platform)
      = (sortedCombined mfr dfr now).map (fun a => a.platform)
  ∧ (mainArticles mfr dfr now).map (fun a => a.excerpt)
      = (sortedCombined mfr dfr now).map (fun a => a.excerpt)
  ∧ (mainArticles mfr dfr now).map (fun a => a.published)
      = (sortedCombined mfr dfr now).map (fun a => a.published)
  ∧ (mainArticles mfr dfr now).map (fun a => a.updated_at)
      = (sortedCombined mfr dfr now).map (fun a => a.updated_at) := by
  refine ⟨rfl, fun a => rfl, ?_, ?_, ?_, ?_, ?_, ?_⟩
  all_goals
    unfold mainArticles
    rw [List.map_map]
    rfl

/-- Counterexample for C8: an entry whose feed title is the empty string
produces a persisted record with an empty `title`. -/
theorem claim_C8_counterexample :
    ∃ a, a ∈ mainArticles (Except.ok [emptyTitleEntry]) (Except.error "boom") "T"
      ∧ a.title = "" := by
  refine ⟨⟨"", "u", "medium", "", "", "T"⟩, ?_, rfl⟩
  decide

/-- C8 amended: every persisted record carries all six fields, with
`platform` always the non-empty string `medium` or `devto`; `title` and
`url` are verbatim copies of the entry title and link, hence non-empty
whenever every fetched entry has a non-empty title and link; `excerpt` and
`published` may be empty. -/
theorem claim_C8_amended (mfr dfr : Except String (List RawEntry)) (now : String) :
    (∀ a ∈ mainArticles mfr dfr now,
        a.platform = "medium" ∨ a.platform = "devto")
  ∧ ((∀ e ∈ entriesOf mfr, e.title ≠ "" ∧ e.link ≠ "") →
      (∀ e ∈ entriesOf dfr, e.title ≠ "" ∧ e.link ≠ "") →
      ∀ a ∈ mainArticles mfr dfr now, a.title ≠ "" ∧ a.url ≠ "") := by
  have hmem : ∀ a ∈ mainArticles mfr dfr now, ∃ b ∈ combined mfr dfr now,
      a = dropSortDate b := by
    intro a ha
    have ha' : a ∈ (sortedCombined mfr dfr now).map dropSortDate := ha
    obtain ⟨b, hb, heq⟩ := List.mem_map.mp ha'
    exact ⟨b, (sortDesc_perm _).mem_iff.mp hb, heq.symm⟩
  constructor
  · intro a ha
    obtain ⟨b, hb, rfl⟩ := hmem a ha
    rcases List.mem_append.mp hb with hm | hd
    · obtain ⟨e, he, hok⟩ := mem_fetch_medium hm
      left
      show b.platform = "medium"
      exact (mk_medium_ok_fields hok).2.2.1
    · obtain ⟨e, he, heq⟩ := mem_fetch_devto hd
      right
      show b.platform = "devto"
      rw [heq]
      exact (mk_devto_fields now e).2.2.1
  · intro hmf hdf a ha
    obtain ⟨b, hb, rfl⟩ := hmem a ha
    rcases List.mem_append.mp hb with hm | hd
    · obtain ⟨e, he, hok⟩ := mem_fetch_medium hm
      have hf := mk_medium_ok_fields hok
      have hne := hmf e he
      constructor
      · show b.title ≠ ""
        rw [hf.1]
        exact hne.1
      · show b.url ≠ ""
        rw [hf.2.1]
        exact hne.2
    · obtain ⟨e, he, heq⟩ := mem_fetch_devto hd
      have hne := hdf e he
      constructor
      · show b.title ≠ ""
        rw [heq, (mk_devto_fields now e).1]
        exact hne.1
      · show b.url ≠ ""
        rw [heq, (mk_devto_fields now e).2.1]
        exact hne.2

/-- Witness for C8 amended at a run with one well-formed Medium entry and
a failing Dev.to fetch. -/
theorem claim_C8_amended_witness :
    ∀ a ∈ mainArticles (Except.ok [goodEntry]) (Except.error "x") "T",
      a.title ≠ "" ∧ a.url ≠ "" := by
  apply (claim_C8_amended (Except.ok [goodEntry]) (Except.error "x") "T").2
  · intro e he
    have he' : e ∈ [goodEntry] := he
    rw [List.mem_singleton.mp he']
    exact ⟨by decide, by decide⟩
  · intro e he
    exact absurd (show e ∈ ([] : List RawEntry) from he) (by simp)

/-- Counterexample for C10: a Medium entry with a present-but-empty content
list and a non-empty summary contributes no record at all (the content
lookup raises), instead of an excerpt drawn from the summary. -/
theorem claim_C10_counterexample :
    mk_medium_article "T" badEntry = Except.error ()
  ∧ fetch_medium_articles (Except.ok [badEntry]) "T" = []
  ∧ badEntry.summary = some "hello" :=
  ⟨rfl, rfl, rfl⟩

/-- C10 amended: for every Medium entry whose content field, when present,
is a non-empty list, the excerpt is cleaned from the first content block
value when that value is non-empty, otherwise from the summary; for every
Dev.to entry the excerpt is cleaned from the description when non-empty,
otherwise from the summary; missing fields degrade to the empty string.
A Medium entry with a present-but-empty content list instead raises an
index error, handled by the per-source catch. -/
theorem claim_C10_amended (e e2 : RawEntry) (now : String)
    (h : e.content ≠ some []) :
    (∃ a, mk_medium_article now e = Except.ok a
        ∧ a.excerpt = clean_html (some (mediumExcerptSrc e)))
  ∧ (mk_devto_article now e2).excerpt = clean_html (some (devtoExcerptSrc e2)) := by
  constructor
  · obtain ⟨a, ha⟩ := @mk_medium_total now e h
    exact ⟨a, ha, mk_medium_ok_excerpt ha (mediumContentOf_eq h)⟩
  · show clean_html (some (devtoContentOf e2)) = _
    unfold devtoContentOf devtoExcerptSrc
    rw [pyOr_eq_src]

/-- Witness for C10 amended: the Medium rule at a plain entry without
content blocks, and the Dev.to rule at an entry that even carries a
present-but-empty content list. -/
theorem claim_C10_amended_witness :
    (∃ a, mk_medium_article "T" goodEntry = Except.ok a
        ∧ a.excerpt = clean_html (some (mediumExcerptSrc goodEntry)))
  ∧ (mk_devto_article "T" badEntry).excerpt
      = clean_html (some (devtoExcerptSrc badEntry)) :=
  claim_C10_amended goodEntry badEntry "T" (by decide)

end FetchArticles
